import Mathlib

set_option maxHeartbeats 1600000
set_option maxRecDepth 4096

deriving instance DecidableEq for Except

/-! Verification development for the DataFusion SQL planner and its type
coercion engine.  The definitions below are shallow embeddings of
`src/rust/datafusion/src/physical_plan/type_coercion.rs` and
`src/rust/datafusion/src/sql/planner.rs`; theorems settle the frozen claims
about those sources. -/

/-! ## Arrow data model -/

/-- Arrow time units (`arrow::datatypes::TimeUnit`). -/
inductive TimeUnit
  | Second
  | Millisecond
  | Microsecond
  | Nanosecond
deriving DecidableEq

/-- Arrow date units (`arrow::datatypes::DateUnit`). -/
inductive DateUnit
  | Day
  | Millisecond
deriving DecidableEq

/-- The nominal scalar types of the engine (`arrow::datatypes::DataType`
restricted to the closed enumeration of spec §3). -/
inductive DataType
  | Boolean
  | Int8
  | Int16
  | Int32
  | Int64
  | UInt8
  | UInt16
  | UInt32
  | UInt64
  | Float32
  | Float64
  | Utf8
  | Timestamp (tu : TimeUnit) (tz : Option String)
  | Date64 (du : DateUnit)
  | Time64 (tu : TimeUnit)
deriving DecidableEq

instance : Inhabited DataType := ⟨DataType.Boolean⟩

/-- Rendering of a `TimeUnit` as Rust's derived `Debug` prints it. -/
def fmtTimeUnit : TimeUnit → String
  | .Second => "Second"
  | .Millisecond => "Millisecond"
  | .Microsecond => "Microsecond"
  | .Nanosecond => "Nanosecond"

/-- Rendering of a `DateUnit` as Rust's derived `Debug` prints it. -/
def fmtDateUnit : DateUnit → String
  | .Day => "Day"
  | .Millisecond => "Millisecond"

/-- Rendering of a `DataType` as Rust's derived `Debug` prints it. -/
def fmtDataType : DataType → String
  | .Boolean => "Boolean"
  | .Int8 => "Int8"
  | .Int16 => "Int16"
  | .Int32 => "Int32"
  | .Int64 => "Int64"
  | .UInt8 => "UInt8"
  | .UInt16 => "UInt16"
  | .UInt32 => "UInt32"
  | .UInt64 => "UInt64"
  | .Float32 => "Float32"
  | .Float64 => "Float64"
  | .Utf8 => "Utf8"
  | .Timestamp tu none => "Timestamp(" ++ fmtTimeUnit tu ++ ", None)"
  | .Timestamp tu (some tz) => "Timestamp(" ++ fmtTimeUnit tu ++ ", Some(\"" ++ tz ++ "\"))"
  | .Date64 du => "Date64(" ++ fmtDateUnit du ++ ")"
  | .Time64 tu => "Time64(" ++ fmtTimeUnit tu ++ ")"

/-- Rendering of a `Vec<DataType>` as Rust's `Debug` prints it. -/
def fmtDTList (l : List DataType) : String :=
  "[" ++ String.intercalate ", " (l.map fmtDataType) ++ "]"

/-! ## Type coercion (`type_coercion.rs`) -/

/-- Translation of `can_coerce_from` (type_coercion.rs:171-225):
`can_coerce_from type_into type_from` is true when a value of `type_from` can
be losslessly converted to a value of `type_into`. -/
def can_coerce_from : DataType → DataType → Bool
  | .Int8, tf => match tf with
      | .Int8 => true
      | _ => false
  | .Int16, tf => match tf with
      | .Int8 | .Int16 | .UInt8 => true
      | _ => false
  | .Int32, tf => match tf with
      | .Int8 | .Int16 | .Int32 | .UInt8 | .UInt16 => true
      | _ => false
  | .Int64, tf => match tf with
      | .Int8 | .Int16 | .Int32 | .Int64 | .UInt8 | .UInt16 | .UInt32 => true
      | _ => false
  | .UInt8, tf => match tf with
      | .UInt8 => true
      | _ => false
  | .UInt16, tf => match tf with
      | .UInt8 | .UInt16 => true
      | _ => false
  | .UInt32, tf => match tf with
      | .UInt8 | .UInt16 | .UInt32 => true
      | _ => false
  | .UInt64, tf => match tf with
      | .UInt8 | .UInt16 | .UInt32 | .UInt64 => true
      | _ => false
  | .Float32, tf => match tf with
      | .Int8 | .Int16 | .Int32 | .Int64 => true
      | .UInt8 | .UInt16 | .UInt32 | .UInt64 => true
      | .Float32 => true
      | _ => false
  | .Float64, tf => match tf with
      | .Int8 | .Int16 | .Int32 | .Int64 => true
      | .UInt8 | .UInt16 | .UInt32 | .UInt64 => true
      | .Float32 | .Float64 => true
      | _ => false
  | .Timestamp .Nanosecond none, tf => match tf with
      | .Timestamp _ none => true
      | _ => false
  | .Utf8, _ => true
  | _, _ => false

/-- The scalar types for which the lattice has a coercion rule: exactly the
`type_into` arms of `can_coerce_from`.  These are the "supported" types of the
spec (§4.1: identity holds for listed types, unlisted types default to false). -/
def supportedTypes : List DataType :=
  [.Int8, .Int16, .Int32, .Int64, .UInt8, .UInt16, .UInt32, .UInt64,
   .Float32, .Float64, .Timestamp .Nanosecond none, .Utf8]

/-- Every coercion whose target is not `Utf8` stays inside this finite set of
types (source and target alike). -/
def coreTypes : List DataType :=
  [.Int8, .Int16, .Int32, .Int64, .UInt8, .UInt16, .UInt32, .UInt64,
   .Float32, .Float64,
   .Timestamp .Second none, .Timestamp .Millisecond none,
   .Timestamp .Microsecond none, .Timestamp .Nanosecond none]

/-- The error type of the physical-plan crate as constructed by
type_coercion.rs: the `General` and `ExecutionError` message variants. -/
inductive ExecutionError
  | general (msg : String)
  | executionError (msg : String)
deriving DecidableEq

/-- Function signatures (`physical_plan::functions::Signature`). -/
inductive Signature
  | Variadic (valid : List DataType)
  | Uniform (number : Nat) (valid : List DataType)
  | VariadicEqual
  | Exact (valid : List DataType)
  | Any (number : Nat)
  | IfFn
deriving DecidableEq

/-- Rendering of a `Signature` as Rust's derived `Debug` prints it. -/
def fmtSignature : Signature → String
  | .Variadic v => "Variadic(" ++ fmtDTList v ++ ")"
  | .Uniform n v => "Uniform(" ++ toString n ++ ", " ++ fmtDTList v ++ ")"
  | .VariadicEqual => "VariadicEqual"
  | .Exact v => "Exact(" ++ fmtDTList v ++ ")"
  | .Any n => "Any(" ++ toString n ++ ")"
  | .IfFn => "IfFn"

/-- The fold step of `common_type` (the closure at type_coercion.rs:229-241). -/
def commonTypeStep (a : Except ExecutionError DataType) (b : DataType) :
    Except ExecutionError DataType :=
  match a with
  | .error e => .error e
  | .ok resolved =>
    if can_coerce_from resolved b then .ok resolved
    else if can_coerce_from b resolved then .ok b
    else .error (.executionError
      ("Can't find common type between " ++ fmtDataType resolved ++ " and " ++
        fmtDataType b))

/-- Translation of `common_type` (type_coercion.rs:228-242).  The Rust body
indexes `data_types[0]` before folding, so the empty list panics: `none` models
that panic; on a non-empty list the fold (over the whole list, seeded with its
head) is returned. -/
def common_type (dts : List DataType) : Option (Except ExecutionError DataType) :=
  match dts with
  | [] => none
  | h :: t => some ((h :: t).foldl commonTypeStep (.ok h))

/-- The loop body of `maybe_data_types` over the zipped
`(valid_type, current_type)` pairs. -/
def maybe_data_types_zip : List (DataType × DataType) → Option (List DataType)
  | [] => some []
  | (valid, current) :: rest =>
    if current = valid then
      match maybe_data_types_zip rest with
      | some tl => some (current :: tl)
      | none => none
    else if can_coerce_from valid current then
      match maybe_data_types_zip rest with
      | some tl => some (valid :: tl)
      | none => none
    else none

/-- Translation of `maybe_data_types` (type_coercion.rs:140-165): pointwise
coercion of `current` into `valid`, `none` when some position cannot coerce or
the lengths differ. -/
def maybe_data_types (valid current : List DataType) : Option (List DataType) :=
  if valid.length ≠ current.length then none
  else maybe_data_types_zip (valid.zip current)

/-- `slice::chunks(2)`: consecutive chunks of length 2, the final chunk
possibly of length 1. -/
def chunksTwo : List DataType → List (List DataType)
  | [] => []
  | [a] => [[a]]
  | a :: b :: rest => [a, b] :: chunksTwo rest

/-- The `input_return_types` collected in the `IfFn` arm of `data_types`:
the last element (`c[c.len() - 1]`) of each chunk of two. -/
def ifInputReturnTypes (current : List DataType) : List DataType :=
  (chunksTwo current).filterMap (fun c => c.getLast?)

/-- The `valid_types` candidate list computed by the signature `match` in
`data_types` (type_coercion.rs:71-120).  Early `return Err` statements become
`some (.error _)`; `none` models an index panic (never reached on the paths the
code guards). -/
def validTypesFor (current : List DataType) :
    Signature → Option (Except ExecutionError (List (List DataType)))
  | .Variadic validTypes =>
    some (.ok (validTypes.map (fun vt => current.map (fun _ => vt))))
  | .Uniform number validTypes =>
    some (.ok (validTypes.map (fun vt => (List.range number).map (fun _ => vt))))
  | .VariadicEqual =>
    some (.ok [current.map (fun _ => current[0]!)])
  | .Exact validTypes => some (.ok [validTypes])
  | .Any number =>
    if current.length ≠ number then
      some (.error (.general
        ("The function expected " ++ toString number ++
          " arguments but received " ++ toString current.length)))
    else some (.ok [(List.range number).map (fun i => current[i]!)])
  | .IfFn =>
    if current.length < 2 then
      some (.error (.general
        ("If requires at least 2 arguments but found " ++ fmtDTList current)))
    else
      match common_type (ifInputReturnTypes current) with
      | none => none
      | some (.error e) => some (.error e)
      | some (.ok common) =>
        some (.ok [(List.range current.length).map (fun i =>
          if i % 2 == 1 || i == current.length - 1 then common
          else DataType.Boolean)])

/-- Translation of `data_types` (type_coercion.rs:67-137): candidate tuples per
the signature, the exact-match fast path, then the first candidate `current`
coerces into, else the generic coercion failure. -/
def data_types (current : List DataType) (sig : Signature) :
    Option (Except ExecutionError (List DataType)) :=
  match validTypesFor current sig with
  | none => none
  | some (.error e) => some (.error e)
  | some (.ok validTypes) =>
    if current ∈ validTypes then some (.ok current)
    else
      match validTypes.findSome? (fun v => maybe_data_types v current) with
      | some types => some (.ok types)
      | none => some (.error (.general
          ("Coercion from " ++ fmtDTList current ++ " to the signature " ++
            fmtSignature sig ++ " failed.")))

/-- Elements of a list paired with their 0-based position, starting at `n`. -/
def idxFrom (n : Nat) : List DataType → List (Nat × DataType)
  | [] => []
  | a :: rest => (n, a) :: idxFrom (n + 1) rest

/-- The types sitting at the result positions of an `IfFn` argument list as the
spec describes them: 0-based odd positions together with the last position. -/
def resultPositionTypes (current : List DataType) : List DataType :=
  ((idxFrom 0 current).filter
    (fun p => p.1 % 2 == 1 || p.1 == current.length - 1)).map Prod.snd

/-! ## Planner data model (`planner.rs`) -/

/-- Modelled from the spec (§3 Data Model): scalar literal values, restricted
to representatives the claims need. -/
inductive ScalarValue
  | int64 (i : Int)
  | uint8 (n : Nat)
  | utf8 (s : String)
  | boolean (b : Bool)
deriving DecidableEq

/-- The closed binary operator set (spec §3). -/
inductive Operator
  | Eq
  | NotEq
  | Lt
  | LtEq
  | Gt
  | GtEq
  | Plus
  | Minus
  | Multiply
  | Divide
  | Modulus
  | And
  | Or
  | Like
  | NotLike
deriving DecidableEq

/-- Modelled from the spec (§3 Data Model): the resolved expression algebra.
Function identifiers are abstracted to strings; the variants kept are the ones
the planner code under verification inspects. -/
inductive Expr
  | column : String → Option String → Expr
  | literal : ScalarValue → Expr
  | alias : Expr → String → Expr
  | binaryExpr : Expr → Operator → Expr → Expr
  | not : Expr → Expr
  | cast : Expr → DataType → Expr
  | scalarFunction : String → List Expr → Expr
  | aggregateFunction : String → Bool → List Expr → Expr
  | aggregateUDF : String → List Expr → Expr
  | wildcard : Expr

instance : Inhabited Expr := ⟨Expr.wildcard⟩

/-- The planner's error type (`DataFusionError`) restricted to the variants the
modelled code paths construct.  `executionCantGroupByAggregate e` stands for
`Execution("Can't group by aggregate function: {:?}")`, whose message embeds
the `Debug` rendering of `e` (the rendering itself is not modelled). -/
inductive DFError
  | plan (msg : String)
  | execution (msg : String)
  | executionCantGroupByAggregate (e : Expr)
  | notImplemented (msg : String)
  | sql (msg : String)

/-- A schema field (`arrow::datatypes::Field`). -/
structure DFField where
  name : String
  dataType : DataType
  nullable : Bool
deriving DecidableEq

/-- A schema: an ordered field sequence (spec §3). -/
abbrev Schema := List DFField

/-- `Schema::field_with_name(name).is_ok()`: whether a field with the given
name exists in the schema. -/
def hasField (s : Schema) (n : String) : Bool :=
  s.any (fun f => f.name == n)

/-- Rendering of an `Operator` for canonical names. -/
def fmtOperator : Operator → String
  | .Eq => "Eq"
  | .NotEq => "NotEq"
  | .Lt => "Lt"
  | .LtEq => "LtEq"
  | .Gt => "Gt"
  | .GtEq => "GtEq"
  | .Plus => "Plus"
  | .Minus => "Minus"
  | .Multiply => "Multiply"
  | .Divide => "Divide"
  | .Modulus => "Modulus"
  | .And => "And"
  | .Or => "Or"
  | .Like => "Like"
  | .NotLike => "NotLike"

/-- Rendering of a `ScalarValue` for canonical names. -/
def fmtScalarValue : ScalarValue → String
  | .int64 i => "Int64(" ++ toString i ++ ")"
  | .uint8 n => "UInt8(" ++ toString n ++ ")"
  | .utf8 s => "Utf8(\"" ++ s ++ "\")"
  | .boolean b => "Boolean(" ++ toString b ++ ")"

mutual
/-- Modelled from the spec: the canonical name of an expression computed
against the input schema (glossary: "the string rendering of an expression
used to identify it across plan boundaries (e.g., COUNT(state))"); the source's
fallible `Expr::name` lives outside the files under verification.  The schema
argument mirrors that of the source. -/
def exprName : Expr → Schema → Except DFError String
  | .column n none, _ => .ok n
  | .column n (some a), _ => .ok (a ++ "." ++ n)
  | .literal v, _ => .ok (fmtScalarValue v)
  | .alias _ a, _ => .ok a
  | .binaryExpr l op r, s =>
    match exprName l s with
    | .error e => .error e
    | .ok ln =>
      match exprName r s with
      | .error e => .error e
      | .ok rn => .ok (ln ++ " " ++ fmtOperator op ++ " " ++ rn)
  | .not e, s =>
    match exprName e s with
    | .error e => .error e
    | .ok n => .ok ("NOT " ++ n)
  | .cast e ty, s =>
    match exprName e s with
    | .error e => .error e
    | .ok n => .ok ("CAST(" ++ n ++ " AS " ++ fmtDataType ty ++ ")")
  | .scalarFunction f args, s =>
    match exprNameList args s with
    | .error e => .error e
    | .ok ns => .ok (f ++ "(" ++ String.intercalate "," ns ++ ")")
  | .aggregateFunction f _ args, s =>
    match exprNameList args s with
    | .error e => .error e
    | .ok ns => .ok (f ++ "(" ++ String.intercalate "," ns ++ ")")
  | .aggregateUDF f args, s =>
    match exprNameList args s with
    | .error e => .error e
    | .ok ns => .ok (f ++ "(" ++ String.intercalate "," ns ++ ")")
  | .wildcard, _ => .ok "*"

/-- Canonical names of an argument list, first error short-circuiting. -/
def exprNameList : List Expr → Schema → Except DFError (List String)
  | [], _ => .ok []
  | e :: rest, s =>
    match exprName e s with
    | .error err => .error err
    | .ok n =>
      match exprNameList rest s with
      | .error err => .error err
      | .ok ns => .ok (n :: ns)
end

mutual
/-- Translation of `is_aggregate_expr` (planner.rs:1110-1120). -/
def is_aggregate_expr : Expr → Bool
  | .aggregateFunction _ _ _ => true
  | .aggregateUDF _ _ => true
  | .alias e _ => is_aggregate_expr e
  | .binaryExpr l _ r => is_aggregate_expr l || is_aggregate_expr r
  | .scalarFunction _ args => anyAggregate args
  | _ => false

/-- `args.iter().any(|e| is_aggregate_expr(e))`. -/
def anyAggregate : List Expr → Bool
  | [] => false
  | e :: rest => is_aggregate_expr e || anyAggregate rest
end

/-! ## GROUP BY resolution and the aggregate step (`planner.rs`) -/

/-- SQL AST literal values (sqlparser's `Value`), restricted to the shapes the
group-by resolution distinguishes. -/
inductive SQLValue
  | number (s : String)
  | singleQuotedString (s : String)
  | boolean (b : Bool)
deriving DecidableEq

/-- SQL AST expressions (sqlparser's `Expr`), restricted: the group-by
resolution only distinguishes numeric literals from every other shape. -/
inductive SQLExpr
  | value (v : SQLValue)
  | identifier (s : String)
  | compoundIdentifier (parts : List String)
deriving DecidableEq

/-- `str::parse::<usize>`: decimal parse, failing on non-digit input (the SQL
parser only produces digit strings here) and on 64-bit overflow. -/
def parseUsize (s : String) : Option Nat :=
  let cs := s.toList
  if cs ≠ [] ∧ cs.all Char.isDigit then
    let n := cs.foldl (fun acc c => acc * 10 + (c.toNat - '0'.toNat)) 0
    if n < 2 ^ 64 then some n else none
  else none

/-- Overflow-checked `usize` subtraction: `none` models the debug-build panic
on underflow. -/
def checkedSub (a b : Nat) : Option Nat :=
  if b ≤ a then some (a - b) else none

/-- Translation of the per-entry closure in `aggregate` (planner.rs:534-552).
`resolve` stands for `sql_to_rex` applied at the input scope (schema and
aliased schema).  The source computes `n - 1` before testing `n >= 1`, so
`none` models the debug-build underflow panic of that subtraction. -/
def resolveGroupByEntry (resolve : SQLExpr → Except DFError Expr)
    (projectionExpr : List Expr) (e : SQLExpr) : Option (Except DFError Expr) :=
  match e with
  | .value (.number n) =>
    match parseUsize n with
    | some m =>
      match checkedSub m 1 with
      | none => none
      | some m1 =>
        some (if m1 < projectionExpr.length ∧ 1 ≤ m then
          if is_aggregate_expr projectionExpr[m1]! then
            .error (.executionCantGroupByAggregate projectionExpr[m1]!)
          else .ok projectionExpr[m1]!
        else .error (.execution
          ("Select column reference should be within 1.." ++
            toString projectionExpr.length ++ " but found " ++ toString m)))
    | none => some (.error (.execution ("Can't parse " ++ n ++ " as number")))
  | _ => some (resolve e)

/-- The `collect::<Result<Vec<Expr>>>()` over the group-by entries
(planner.rs:532-553): first error short-circuits, a panic propagates. -/
def collectGroupExprs (resolve : SQLExpr → Except DFError Expr)
    (projectionExpr : List Expr) :
    List SQLExpr → Option (Except DFError (List Expr))
  | [] => some (.ok [])
  | e :: rest =>
    match resolveGroupByEntry resolve projectionExpr e with
    | none => none
    | some (.error err) => some (.error err)
    | some (.ok ex) =>
      match collectGroupExprs resolve projectionExpr rest with
      | none => none
      | some (.error err) => some (.error err)
      | some (.ok exs) => some (.ok (ex :: exs))

/-- `Vec::<String>::sort()`: sort by the lexicographic order on strings. -/
def sortStrings (l : List String) : List String :=
  l.mergeSort (fun a b => a ≤ b)

/-- The result of the aggregate step once the coherence check has passed. -/
structure AggPieces where
  groupExpr : List Expr
  aggrExpr : List Expr

/-- Translation of `SqlToRel::aggregate` (planner.rs:525-615) up to and
including the projection/aggregate coherence check.  `resolve` stands for
`sql_to_rex` at the input scope and `schema` for `input.schema()`.  Modelled
from the spec: plan construction after the check (§4.5 steps 9-10, the
`LogicalPlanBuilder` calls, which live outside the files under verification)
is abstracted as success carrying the resolved group and aggregate
expressions. -/
def aggregate (resolve : SQLExpr → Except DFError Expr) (schema : Schema)
    (projectionExpr : List Expr) (groupBy : List SQLExpr)
    (aggrExpr : List Expr) : Option (Except DFError AggPieces) :=
  match collectGroupExprs resolve projectionExpr groupBy with
  | none => none
  | some (.error e) => some (.error e)
  | some (.ok groupExpr) =>
    let nonAggrProjection := projectionExpr.filter (fun e => !is_aggregate_expr e)
    match exprNameList groupExpr schema with
    | .error e => some (.error e)
    | .ok groupExprNames =>
      match exprNameList nonAggrProjection schema with
      | .error e => some (.error e)
      | .ok nonAggrProjectionNames =>
        if sortStrings groupExprNames ≠ sortStrings nonAggrProjectionNames then
          some (.error (.plan "Projection references non-aggregate values"))
        else some (.ok ⟨groupExpr, aggrExpr⟩)

/-! ## Implicit join synthesis (`select_to_plan`, planner.rs:434-471) -/

/-- Join types dispatched by the planner. -/
inductive JoinType
  | Inner
  | Left
  | Right
deriving DecidableEq

/-- Modelled from the spec (§3, §4.4): the fragment of `LogicalPlan` the WHERE
join-synthesis fold builds.  `join` carries the join type and the collected
equijoin key pairs; its schema is the concatenation of the child schemas
(§4.4: "join computes a combined schema from child schemas (no dedup)"). -/
inductive Plan
  | scan (schema : Schema)
  | join (left : Plan) (right : Plan) (jt : JoinType)
      (keys : List (String × String))
deriving DecidableEq

/-- The schema of a plan fragment: scans carry theirs, joins concatenate. -/
def planSchema : Plan → Schema
  | .scan s => s
  | .join l r _ _ => planSchema l ++ planSchema r

/-- Translation of `extract_possible_join_keys` (planner.rs:1086-1107):
column-equality pairs found under conjunctions of the predicate, in source
order.  The Rust function returns `Result` but never errors. -/
def extract_possible_join_keys : Expr → List (String × String)
  | .binaryExpr l op r =>
    match op with
    | .Eq =>
      match l, r with
      | .column ln _, .column rn _ => [(ln, rn)]
      | _, _ => []
    | .And => extract_possible_join_keys l ++ extract_possible_join_keys r
    | _ => []
  | _ => []

/-- The key-matching loop body of one fold step (planner.rs:445-455): keep a
possible key when one side names a field of the accumulated left schema and
the other a field of the current right schema, orienting it left-first. -/
def stepJoinKeys (leftSchema rightSchema : Schema)
    (possible : List (String × String)) : List (String × String) :=
  possible.filterMap (fun p =>
    if hasField leftSchema p.1 && hasField rightSchema p.2 then some (p.1, p.2)
    else if hasField leftSchema p.2 && hasField rightSchema p.1 then
      some (p.2, p.1)
    else none)

/-- Translation of the join-synthesis fold (planner.rs:438-471): fold the
remaining relations into Inner joins keyed by the matched pairs, failing when
a step matches no key; also accumulates `all_join_keys`. -/
def buildJoins (possible : List (String × String)) :
    Plan → List Plan → Except DFError (Plan × List (String × String))
  | left, [] => .ok (left, [])
  | left, right :: rest =>
    let joinKeys := stepJoinKeys (planSchema left) (planSchema right) possible
    if joinKeys = [] then
      .error (.notImplemented "Cartesian joins are not supported")
    else
      match buildJoins possible (Plan.join left right .Inner joinKeys) rest with
      | .error e => .error e
      | .ok (p, keys) => .ok (p, joinKeys ++ keys)

/-- The multi-relation WHERE path of `select_to_plan`: extract the possible
equijoin keys from the resolved predicate and fold the FROM relations into
Inner joins.  `plans[0]` of an empty vector would panic (`none`);
`plan_from_tables` guarantees non-emptiness. -/
def whereJoinPlan (plans : List Plan) (filterExpr : Expr) :
    Option (Except DFError (Plan × List (String × String))) :=
  match plans with
  | [] => none
  | p :: rest => some (buildJoins (extract_possible_join_keys filterExpr) p rest)

/-! ## SQL type mappings (`planner.rs`) -/

/-- SQL AST data types (sqlparser's `DataType`), restricted to the arms the
two mapping functions inspect plus one unsupported representative. -/
inductive SQLDataType
  | boolean
  | smallInt
  | int
  | bigInt
  | float (n : Option Nat)
  | real
  | double
  | char (n : Option Nat)
  | varchar (n : Option Nat)
  | text
  | decimal (p : Option Nat) (s : Option Nat)
  | date
  | time
  | timestamp
  | interval
deriving DecidableEq

/-- Rendering of an `Option<u64>` as Rust's `Debug` prints it. -/
def fmtOptNat : Option Nat → String
  | none => "None"
  | some n => "Some(" ++ toString n ++ ")"

/-- Rendering of a `SQLDataType` as Rust's derived `Debug` prints it. -/
def fmtSQLDataType : SQLDataType → String
  | .boolean => "Boolean"
  | .smallInt => "SmallInt"
  | .int => "Int"
  | .bigInt => "BigInt"
  | .float n => "Float(" ++ fmtOptNat n ++ ")"
  | .real => "Real"
  | .double => "Double"
  | .char n => "Char(" ++ fmtOptNat n ++ ")"
  | .varchar n => "Varchar(" ++ fmtOptNat n ++ ")"
  | .text => "Text"
  | .decimal p s => "Decimal(" ++ fmtOptNat p ++ ", " ++ fmtOptNat s ++ ")"
  | .date => "Date"
  | .time => "Time"
  | .timestamp => "Timestamp"
  | .interval => "Interval"

/-- Translation of `SqlToRel::make_data_type` (planner.rs:255-275): the CREATE
EXTERNAL TABLE column-declaration route. -/
def make_data_type : SQLDataType → Except DFError DataType
  | .bigInt => .ok .Int64
  | .int => .ok .Int32
  | .smallInt => .ok .Int16
  | .char _ => .ok .Utf8
  | .varchar _ => .ok .Utf8
  | .text => .ok .Utf8
  | .decimal _ _ => .ok .Float64
  | .float _ => .ok .Float32
  | .real => .ok .Float64
  | .double => .ok .Float64
  | .boolean => .ok .Boolean
  | .date => .ok (.Date64 .Day)
  | .time => .ok (.Time64 .Millisecond)
  | .timestamp => .ok (.Date64 .Millisecond)
  | other => .error (.notImplemented
      ("The SQL data type " ++ fmtSQLDataType other ++ " is not implemented"))

/-- Translation of `convert_data_type` (planner.rs:1189-1204): the CAST
route. -/
def convert_data_type : SQLDataType → Except DFError DataType
  | .boolean => .ok .Boolean
  | .smallInt => .ok .Int16
  | .int => .ok .Int32
  | .bigInt => .ok .Int64
  | .float _ => .ok .Float64
  | .real => .ok .Float64
  | .double => .ok .Float64
  | .char _ => .ok .Utf8
  | .varchar _ => .ok .Utf8
  | .timestamp => .ok (.Timestamp .Nanosecond none)
  | other => .error (.notImplemented
      ("Unsupported SQL type " ++ fmtSQLDataType other))

/-! ## Lattice helper lemmas -/

/-- Coercion into `Utf8` always succeeds. -/
theorem can_coerce_into_utf8 (a : DataType) : can_coerce_from .Utf8 a = true := rfl

/-- Only `Utf8` can receive a coercion from `Utf8`. -/
theorem coerce_from_utf8 (c : DataType) (h : can_coerce_from c .Utf8 = true) :
    c = .Utf8 := by
  cases c <;>
    first
    | rfl
    | (revert h; decide)
    | (simp [can_coerce_from] at h; done)
    | (rename_i u z
       cases u <;> cases z <;> (simp [can_coerce_from] at h; done))

/-- Any coercion not targeting `Utf8` stays inside `coreTypes`. -/
theorem coerce_in_coreTypes (b a : DataType) (h : can_coerce_from b a = true) :
    b = .Utf8 ∨ (b ∈ coreTypes ∧ a ∈ coreTypes) := by
  cases b
  case Utf8 => exact Or.inl rfl
  case Timestamp u1 z1 =>
    cases u1 <;> cases z1 <;>
      first
      | (simp [can_coerce_from] at h; done)
      | (cases a <;>
          first
          | (simp [can_coerce_from] at h; done)
          | (rename_i u2 z2
             cases u2 <;> cases z2 <;>
               first
               | (simp [can_coerce_from] at h; done)
               | (right; exact ⟨by decide, by decide⟩)))
  all_goals
    cases a <;>
      first
      | (revert h; decide)
      | (simp [can_coerce_from] at h; done)
      | (rename_i u2 z2
         cases u2 <;> cases z2 <;>
           first
           | (revert h; decide)
           | (simp [can_coerce_from] at h; done))

/-- `can_coerce_from` is transitive on all scalar types. -/
theorem can_coerce_trans (a b c : DataType) (hba : can_coerce_from b a = true)
    (hcb : can_coerce_from c b = true) : can_coerce_from c a = true := by
  rcases coerce_in_coreTypes c b hcb with hc | ⟨hcC, hbC⟩
  · subst hc
    exact can_coerce_into_utf8 a
  · rcases coerce_in_coreTypes b a hba with hb | ⟨hbC2, haC⟩
    · subst hb
      have : c = .Utf8 := coerce_from_utf8 c hcb
      subst this
      exact can_coerce_into_utf8 a
    · revert hba hcb
      have hdec : ∀ x ∈ coreTypes, ∀ y ∈ coreTypes, ∀ z ∈ coreTypes,
          can_coerce_from y x = true → can_coerce_from z y = true →
          can_coerce_from z x = true := by decide
      exact hdec a haC b hbC2 c hcC

/-- A type that is a coercion target coerces from itself. -/
theorem coerce_into_refl (b a : DataType) (h : can_coerce_from b a = true) :
    can_coerce_from b b = true := by
  rcases coerce_in_coreTypes b a h with hb | ⟨hbC, haC⟩
  · subst hb; rfl
  · revert h
    have hdec : ∀ x ∈ coreTypes, ∀ y ∈ coreTypes,
        can_coerce_from x y = true → can_coerce_from x x = true := by decide
    exact hdec b hbC a haC

/-- `can_coerce_from` is antisymmetric on all scalar types. -/
theorem can_coerce_antisymm (a b : DataType) (hab : can_coerce_from a b = true)
    (hba : can_coerce_from b a = true) : a = b := by
  rcases coerce_in_coreTypes a b hab with ha | ⟨haC, hbC⟩
  · subst ha
    exact (coerce_from_utf8 b hba).symm
  · rcases coerce_in_coreTypes b a hba with hb | ⟨hbC2, haC2⟩
    · subst hb
      exact coerce_from_utf8 a hab
    · revert hab hba
      have hdec : ∀ x ∈ coreTypes, ∀ y ∈ coreTypes,
          can_coerce_from x y = true → can_coerce_from y x = true → x = y := by
        decide
      exact hdec a haC b hbC

/-- Error accumulators absorb the rest of the `common_type` fold. -/
theorem foldl_commonTypeStep_error (l : List DataType) (e : ExecutionError) :
    l.foldl commonTypeStep (.error e) = .error e := by
  induction l with
  | nil => rfl
  | cons b t ih => simpa [commonTypeStep] using ih

/-- Invariant of the `common_type` fold: a successful fold result is the seed
or an element of the folded list, dominates the seed (or equals it), and
dominates every folded element. -/
theorem foldl_commonTypeStep_ok (l : List DataType) :
    ∀ r t, l.foldl commonTypeStep (.ok r) = .ok t →
      (t = r ∨ t ∈ l) ∧ (t = r ∨ can_coerce_from t r = true) ∧
        ∀ x ∈ l, can_coerce_from t x = true := by
  induction l with
  | nil =>
    intro r t h
    simp only [List.foldl_nil] at h
    cases h
    exact ⟨Or.inl rfl, Or.inl rfl, by simp⟩
  | cons b tl ih =>
    intro r t h
    simp only [List.foldl_cons] at h
    by_cases hrb : can_coerce_from r b = true
    · rw [show commonTypeStep (.ok r) b = .ok r by
        simp [commonTypeStep, hrb]] at h
      obtain ⟨hmem, hdom, hall⟩ := ih r t h
      refine ⟨?_, hdom, ?_⟩
      · rcases hmem with h1 | h1
        · exact Or.inl h1
        · exact Or.inr (List.mem_cons_of_mem _ h1)
      · intro x hx
        rcases List.mem_cons.mp hx with hxb | hxtl
        · subst hxb
          rcases hdom with h1 | h1
          · subst h1; exact hrb
          · exact can_coerce_trans _ r t hrb h1
        · exact hall x hxtl
    · by_cases hbr : can_coerce_from b r = true
      · rw [show commonTypeStep (.ok r) b = .ok b by
          simp [commonTypeStep, hrb, hbr]] at h
        obtain ⟨hmem, hdom, hall⟩ := ih b t h
        have htb : can_coerce_from t b = true := by
          rcases hdom with h1 | h1
          · subst h1; exact coerce_into_refl t r hbr
          · exact h1
        refine ⟨?_, ?_, ?_⟩
        · rcases hmem with h1 | h1
          · exact Or.inr (h1 ▸ List.mem_cons_self b tl)
          · exact Or.inr (List.mem_cons_of_mem _ h1)
        · exact Or.inr (can_coerce_trans r b t hbr htb)
        · intro x hx
          rcases List.mem_cons.mp hx with hxb | hxtl
          · subst hxb; exact htb
          · exact hall x hxtl
      · have hstep : commonTypeStep (Except.ok r) b =
            Except.error (.executionError
              ("Can't find common type between " ++ fmtDataType r ++ " and " ++
                fmtDataType b)) := by
          simp [commonTypeStep, hrb, hbr]
        rw [hstep, foldl_commonTypeStep_error] at h
        cases h

/-! ## Claim C2 -/

/-- C2: `can_coerce_from` is reflexive on every supported scalar type, is
transitive, and is antisymmetric (mutual coercibility implies equality), so it
is a partial order over the supported scalar types. -/
theorem claim_c2_can_coerce_partial_order :
    (∀ t ∈ supportedTypes, can_coerce_from t t = true) ∧
    (∀ a b c : DataType, can_coerce_from b a = true →
      can_coerce_from c b = true → can_coerce_from c a = true) ∧
    (∀ a b : DataType, can_coerce_from a b = true →
      can_coerce_from b a = true → a = b) :=
  ⟨by decide, can_coerce_trans, can_coerce_antisymm⟩

/-- Witness for C2 at `Int8 → Int16 → Int64`. -/
theorem claim_c2_witness :
    DataType.Int8 ∈ supportedTypes ∧
    can_coerce_from .Int16 .Int8 = true ∧
    can_coerce_from .Int64 .Int16 = true ∧
    can_coerce_from .Int64 .Int8 = true ∧
    can_coerce_from .Int8 .Int8 = true :=
  ⟨by decide, by decide, by decide,
    claim_c2_can_coerce_partial_order.2.1 .Int8 .Int16 .Int64 (by decide)
      (by decide),
    claim_c2_can_coerce_partial_order.1 .Int8 (by decide)⟩

/-! ## Claim C3 -/

/-- C3: when the `common_type` fold succeeds, its result is a least upper
bound of the list in the coercion lattice (an element of the list that every
element coerces into, itself coercing into every common dominator); moreover
`common_type [T] = T` for every supported `T`,
`common_type [Float64, Int32] = Float64`, and `common_type [Boolean, Int32]`
fails. -/
theorem claim_c3_common_type_lub :
    (∀ l t, common_type l = some (.ok t) →
      t ∈ l ∧ (∀ x ∈ l, can_coerce_from t x = true) ∧
        ∀ u, (∀ x ∈ l, can_coerce_from u x = true) →
          can_coerce_from u t = true) ∧
    (∀ t ∈ supportedTypes, common_type [t] = some (.ok t)) ∧
    common_type [.Float64, .Int32] = some (.ok .Float64) ∧
    common_type [.Boolean, .Int32] = some (.error (.executionError
      "Can't find common type between Boolean and Boolean")) := by
  refine ⟨?_, by decide, by decide, by decide⟩
  intro l t h
  cases l with
  | nil => simp [common_type] at h
  | cons h0 tl =>
    simp only [common_type, Option.some.injEq] at h
    obtain ⟨hmem, _, hall⟩ := foldl_commonTypeStep_ok (h0 :: tl) h0 t h
    have htmem : t ∈ h0 :: tl := by
      rcases hmem with h1 | h1
      · exact h1 ▸ List.mem_cons_self h0 tl
      · exact h1
    exact ⟨htmem, hall, fun u hu => hu t htmem⟩

/-- Witness for C3 at `[Float64, Int32]`. -/
theorem claim_c3_witness :
    common_type [.Float64, .Int32] = some (.ok .Float64) ∧
    DataType.Float64 ∈ [DataType.Float64, DataType.Int32] ∧
    ∀ x ∈ [DataType.Float64, DataType.Int32],
      can_coerce_from .Float64 x = true :=
  ⟨by decide,
    (claim_c3_common_type_lub.1 [.Float64, .Int32] .Float64 (by decide)).1,
    (claim_c3_common_type_lub.1 [.Float64, .Int32] .Float64 (by decide)).2.1⟩

/-! ## Claim C9 -/

/-- C9: `common_type` reads element 0 unconditionally, so it panics on the
empty list (modelled as `none`) and returns an `Ok` or `Err` value on every
non-empty list. -/
theorem claim_c9_common_type_total_on_nonempty :
    common_type [] = none ∧
    ∀ l : List DataType, l ≠ [] → ∃ r, common_type l = some r := by
  refine ⟨rfl, ?_⟩
  intro l hl
  cases l with
  | nil => exact absurd rfl hl
  | cons h t => exact ⟨_, rfl⟩

/-- Witness for C9 at `[Int32]`. -/
theorem claim_c9_witness :
    ([DataType.Int32] ≠ ([] : List DataType)) ∧
    ∃ r, common_type [DataType.Int32] = some r :=
  ⟨by decide, claim_c9_common_type_total_on_nonempty.2 [.Int32] (by decide)⟩

/-! ## Claim C4 -/

/-- C4 counterexample: `data_types` on one argument against `Uniform(2, [Int32])`
fails, but with the generic coercion-failure message, not with
"The function expected 2 arguments but received 1" as the claim states. -/
theorem claim_c4_counterexample :
    data_types [.Int32] (.Uniform 2 [.Int32]) = some (.error (.general
      "Coercion from [Int32] to the signature Uniform(2, [Int32]) failed.")) ∧
    data_types [.Int32] (.Uniform 2 [.Int32]) ≠ some (.error (.general
      "The function expected 2 arguments but received 1")) := by
  constructor
  · rfl
  · intro h
    rw [show data_types [.Int32] (.Uniform 2 [.Int32]) = some (.error (.general
      "Coercion from [Int32] to the signature Uniform(2, [Int32]) failed."))
      from rfl] at h
    simp at h

/-- C4 amended: with a wrong argument count `m ≠ n`, `Any(n)` fails with
"The function expected n arguments but received m", while `Uniform(n, _)`
fails with the generic "Coercion from {actual} to the signature {sig} failed."
message. -/
theorem claim_c4_arity_errors :
    (∀ (current : List DataType) (n : Nat), current.length ≠ n →
      data_types current (.Any n) = some (.error (.general
        ("The function expected " ++ toString n ++ " arguments but received " ++
          toString current.length)))) ∧
    (∀ (current : List DataType) (n : Nat) (validTypes : List DataType),
      current.length ≠ n →
      data_types current (.Uniform n validTypes) = some (.error (.general
        ("Coercion from " ++ fmtDTList current ++ " to the signature " ++
          fmtSignature (.Uniform n validTypes) ++ " failed.")))) := by
  constructor
  · intro current n h
    simp [data_types, validTypesFor, h]
  · intro current n vts h
    have hmemf : ¬ ∃ a ∈ vts, List.replicate n a = current := by
      rintro ⟨vt, _, heq⟩
      apply h
      rw [← heq, List.length_replicate]
    have hnone : (vts.map (fun vt => List.replicate n vt)).findSome?
        (fun v => maybe_data_types v current) = none := by
      rw [List.findSome?_eq_none_iff]
      intro v hv2
      obtain ⟨vt, _, heq⟩ := List.mem_map.mp hv2
      have hlen : v.length ≠ current.length := by
        rw [← heq, List.length_replicate]
        exact fun hc => h hc.symm
      simp [maybe_data_types, hlen]
    simp [data_types, validTypesFor, hmemf, hnone]

/-- Witness for the amended C4 at one argument against arity 2. -/
theorem claim_c4_witness :
    ([DataType.Int32].length ≠ 2) ∧
    data_types [.Int32] (.Any 2) = some (.error (.general
      "The function expected 2 arguments but received 1")) ∧
    data_types [.Int32] (.Uniform 2 [.Float64]) = some (.error (.general
      "Coercion from [Int32] to the signature Uniform(2, [Float64]) failed.")) :=
  ⟨by decide, claim_c4_arity_errors.1 [.Int32] 2 (by decide),
    claim_c4_arity_errors.2 [.Int32] 2 [.Float64] (by decide)⟩

/-! ## Claim C7 -/

/-- The chunk-based extraction of `IfFn` result types equals the position-based
description, generalized over an even starting offset. -/
theorem idxFilter_eq_ifInputReturnTypes :
    ∀ (r : List DataType) (n L : Nat), n % 2 = 0 → L = n + r.length →
      ((idxFrom n r).filter
        (fun p => p.1 % 2 == 1 || p.1 == L - 1)).map Prod.snd =
        ifInputReturnTypes r
  | [], n, L, _, _ => by
    simp [idxFrom, ifInputReturnTypes, chunksTwo]
  | [a], n, L, hn, hL => by
    subst hL
    have hcond : (n % 2 == 1 || n == n + 1 - 1) = true := by
      simp
    simp [idxFrom, ifInputReturnTypes, chunksTwo, List.filter_cons, hcond]
  | a :: b :: rr, n, L, hn, hL => by
    subst hL
    have hmod : (n + 1) % 2 = 1 := by omega
    have ih := idxFilter_eq_ifInputReturnTypes rr (n + 1 + 1)
      (n + (rr.length + 1 + 1)) (by omega) (by omega)
    simp [idxFrom, ifInputReturnTypes, chunksTwo, List.filter_cons, hn,
      hmod] at ih ⊢
    rw [ih]

/-- The `IfFn` chunk extraction collects exactly the types at the 0-based odd
positions together with the last position. -/
theorem ifInputReturnTypes_eq_resultPositionTypes (ct : List DataType) :
    ifInputReturnTypes ct = resultPositionTypes ct := by
  unfold resultPositionTypes
  exact (idxFilter_eq_ifInputReturnTypes ct 0 ct.length rfl (by omega)).symm

/-- C7: with at least two argument types and a computable common result type,
the `IfFn` arm of `data_types` produces a single candidate tuple assigning
`Boolean` to every even non-final position and the common type of the
result-position types (odd positions and the last) everywhere else; with
fewer than two arguments it fails with the arity error. -/
theorem claim_c7_iffn_signature :
    (∀ (ct : List DataType) (c : DataType), 2 ≤ ct.length →
      common_type (ifInputReturnTypes ct) = some (.ok c) →
      ifInputReturnTypes ct = resultPositionTypes ct ∧
      common_type (resultPositionTypes ct) = some (.ok c) ∧
      validTypesFor ct .IfFn = some (.ok [(List.range ct.length).map (fun i =>
        if i % 2 == 1 || i == ct.length - 1 then c else DataType.Boolean)]) ∧
      ∀ i, i < ct.length →
        ((List.range ct.length).map (fun j =>
          if j % 2 == 1 || j == ct.length - 1 then c else DataType.Boolean))[i]? =
          some (if i % 2 = 1 ∨ i = ct.length - 1 then c else DataType.Boolean)) ∧
    (∀ ct : List DataType, ct.length < 2 →
      data_types ct .IfFn = some (.error (.general
        ("If requires at least 2 arguments but found " ++ fmtDTList ct)))) := by
  constructor
  · intro ct c hlen hcommon
    have heq := ifInputReturnTypes_eq_resultPositionTypes ct
    refine ⟨heq, heq ▸ hcommon, ?_, ?_⟩
    · simp [validTypesFor, Nat.not_lt.mpr hlen, hcommon]
    · intro i hi
      rw [List.getElem?_map, List.getElem?_range hi]
      by_cases h1 : i % 2 = 1
      · simp [h1]
      · by_cases h2 : i = ct.length - 1
        · simp [h1, h2]
        · simp [h1, h2]
  · intro ct hlen
    simp [data_types, validTypesFor, hlen]

/-- Witness for C7 at `[Boolean, Int32, Boolean, Float64, Int64]`. -/
theorem claim_c7_witness :
    2 ≤ [DataType.Boolean, DataType.Int32, DataType.Boolean, DataType.Float64,
      DataType.Int64].length ∧
    common_type (ifInputReturnTypes [DataType.Boolean, DataType.Int32,
      DataType.Boolean, DataType.Float64, DataType.Int64]) =
      some (.ok .Float64) ∧
    validTypesFor [DataType.Boolean, DataType.Int32, DataType.Boolean,
      DataType.Float64, DataType.Int64] .IfFn =
      some (.ok [(List.range 5).map (fun i =>
        if i % 2 == 1 || i == 4 then DataType.Float64 else DataType.Boolean)]) :=
  ⟨by decide, by decide,
    (claim_c7_iffn_signature.1 [.Boolean, .Int32, .Boolean, .Float64, .Int64]
      .Float64 (by decide) (by decide)).2.2.1⟩

/-! ## Claim C6 -/

/-- C6: the two SQL-type mappings diverge exactly on FLOAT
(`Float32` vs `Float64`) and TIMESTAMP (`Date64(Millisecond)` vs
`Timestamp(Nanosecond, None)`), and agree on BOOLEAN, SMALLINT, INT, BIGINT,
REAL, DOUBLE, CHAR and VARCHAR. -/
theorem claim_c6_sql_type_mapping_divergence :
    (∀ n, make_data_type (.float n) = .ok .Float32 ∧
      convert_data_type (.float n) = .ok .Float64) ∧
    make_data_type .timestamp = .ok (.Date64 .Millisecond) ∧
    convert_data_type .timestamp = .ok (.Timestamp .Nanosecond none) ∧
    make_data_type .boolean = convert_data_type .boolean ∧
    make_data_type .smallInt = convert_data_type .smallInt ∧
    make_data_type .int = convert_data_type .int ∧
    make_data_type .bigInt = convert_data_type .bigInt ∧
    make_data_type .real = convert_data_type .real ∧
    make_data_type .double = convert_data_type .double ∧
    (∀ n, make_data_type (.char n) = convert_data_type (.char n)) ∧
    (∀ n, make_data_type (.varchar n) = convert_data_type (.varchar n)) :=
  ⟨fun _ => ⟨rfl, rfl⟩, rfl, rfl, rfl, rfl, rfl, rfl, rfl, rfl,
    fun _ => rfl, fun _ => rfl⟩

/-! ## Claim C5 -/

/-- C5 counterexample: a numeric GROUP BY literal that is out of range is not
"resolved normally" (here normal resolution would succeed with a column); the
code fails with a positional-reference Execution error instead. -/
theorem claim_c5_counterexample :
    resolveGroupByEntry (fun _ => .ok (Expr.column "x" none))
      [Expr.column "a" none] (SQLExpr.value (.number "2")) =
      some (.error (.execution
        "Select column reference should be within 1..1 but found 2")) ∧
    resolveGroupByEntry (fun _ => .ok (Expr.column "x" none))
      [Expr.column "a" none] (SQLExpr.value (.number "2")) ≠
      some (.ok (Expr.column "x" none)) := by
  refine ⟨rfl, ?_⟩
  intro h
  rw [show resolveGroupByEntry (fun _ => .ok (Expr.column "x" none))
      [Expr.column "a" none] (SQLExpr.value (.number "2")) =
      some (.error (.execution
        "Select column reference should be within 1..1 but found 2"))
    from rfl] at h
  simp at h

/-- C5 amended: a numeric literal `n` with `1 ≤ n ≤ |projections|` whose target
is not aggregate substitutes `projections[n-1]`; an in-range literal naming an
aggregate fails with the "Can't group by aggregate function" Execution error;
an out-of-range literal (`n ≥ 1`) fails with the positional-reference
Execution error; an unparseable numeric literal fails with a parse Execution
error; only non-numeric entries are resolved normally. -/
theorem claim_c5_group_by_entry_resolution :
    (∀ (resolve : SQLExpr → Except DFError Expr) (proj : List Expr)
        (e : SQLExpr), (∀ s, e ≠ .value (.number s)) →
      resolveGroupByEntry resolve proj e = some (resolve e)) ∧
    (∀ (resolve : SQLExpr → Except DFError Expr) (proj : List Expr)
        (s : String) (m : Nat), parseUsize s = some m → 1 ≤ m →
      m - 1 < proj.length → is_aggregate_expr proj[m - 1]! = false →
      resolveGroupByEntry resolve proj (.value (.number s)) =
        some (.ok proj[m - 1]!)) ∧
    (∀ (resolve : SQLExpr → Except DFError Expr) (proj : List Expr)
        (s : String) (m : Nat), parseUsize s = some m → 1 ≤ m →
      m - 1 < proj.length → is_aggregate_expr proj[m - 1]! = true →
      resolveGroupByEntry resolve proj (.value (.number s)) =
        some (.error (.executionCantGroupByAggregate proj[m - 1]!))) ∧
    (∀ (resolve : SQLExpr → Except DFError Expr) (proj : List Expr)
        (s : String) (m : Nat), parseUsize s = some m → 1 ≤ m →
      ¬ m - 1 < proj.length →
      resolveGroupByEntry resolve proj (.value (.number s)) =
        some (.error (.execution
          ("Select column reference should be within 1.." ++
            toString proj.length ++ " but found " ++ toString m)))) ∧
    (∀ (resolve : SQLExpr → Except DFError Expr) (proj : List Expr)
        (s : String), parseUsize s = none →
      resolveGroupByEntry resolve proj (.value (.number s)) =
        some (.error (.execution ("Can't parse " ++ s ++ " as number")))) := by
  refine ⟨?_, ?_, ?_, ?_, ?_⟩
  · intro resolve proj e he
    cases e with
    | value v =>
      cases v with
      | number s => exact absurd rfl (he s)
      | singleQuotedString s => rfl
      | boolean b => rfl
    | identifier s => rfl
    | compoundIdentifier parts => rfl
  · intro resolve proj s m hp h1 hlt hagg
    simp [resolveGroupByEntry, hp, checkedSub, h1, hlt, hagg]
  · intro resolve proj s m hp h1 hlt hagg
    simp [resolveGroupByEntry, hp, checkedSub, h1, hlt, hagg]
  · intro resolve proj s m hp h1 hlt
    simp [resolveGroupByEntry, hp, checkedSub, h1, hlt]
  · intro resolve proj s hp
    simp [resolveGroupByEntry, hp]

/-- Witness for the amended C5: entry `1` substitutes the first projection. -/
theorem claim_c5_witness :
    parseUsize "1" = some 1 ∧ (1 : Nat) ≤ 1 ∧
    1 - 1 < [Expr.column "a" none].length ∧
    is_aggregate_expr ([Expr.column "a" none][1 - 1]!) = false ∧
    resolveGroupByEntry (fun _ => .ok Expr.wildcard) [Expr.column "a" none]
      (.value (.number "1")) = some (.ok (Expr.column "a" none)) :=
  ⟨rfl, by decide, by decide, rfl,
    claim_c5_group_by_entry_resolution.2.1 (fun _ => .ok Expr.wildcard)
      [Expr.column "a" none] "1" 1 rfl (by decide) (by decide) rfl⟩

/-! ## Claim C10 -/

/-- C10: a GROUP BY entry that is the numeric literal `0` makes the planner
evaluate `0 - 1` on an unsigned integer before the `n >= 1` guard, an
underflow that panics in overflow-checked builds (modelled as `none`); every
parsed literal `n ≥ 1` avoids the underflow and yields a result. -/
theorem claim_c10_group_by_zero_underflow :
    (∀ (resolve : SQLExpr → Except DFError Expr) (proj : List Expr),
      resolveGroupByEntry resolve proj (.value (.number "0")) = none) ∧
    (∀ (resolve : SQLExpr → Except DFError Expr) (proj : List Expr)
        (s : String) (m : Nat), parseUsize s = some m → 1 ≤ m →
      ∃ r, resolveGroupByEntry resolve proj (.value (.number s)) = some r) := by
  constructor
  · intro resolve proj
    rfl
  · intro resolve proj s m hp h1
    have hsub : checkedSub m 1 = some (m - 1) := by simp [checkedSub, h1]
    simp only [resolveGroupByEntry, hp, hsub]
    exact ⟨_, rfl⟩

/-- Witness for C10: entry `0` panics, entry `3` does not. -/
theorem claim_c10_witness :
    resolveGroupByEntry (fun _ => .ok Expr.wildcard) [] (.value (.number "0")) =
      none ∧
    parseUsize "3" = some 3 ∧ (1 : Nat) ≤ 3 ∧
    ∃ r, resolveGroupByEntry (fun _ => .ok Expr.wildcard) []
      (.value (.number "3")) = some r :=
  ⟨claim_c10_group_by_zero_underflow.1 (fun _ => .ok Expr.wildcard) [],
    rfl, by decide,
    claim_c10_group_by_zero_underflow.2 (fun _ => .ok Expr.wildcard) [] "3" 3
      rfl (by decide)⟩

/-! ## Claim C1 -/

/-- Two string lists sort equal exactly when they are permutations. -/
theorem sortStrings_eq_iff_perm (l1 l2 : List String) :
    sortStrings l1 = sortStrings l2 ↔ l1.Perm l2 := by
  constructor
  · intro h
    have p1 : l1.Perm (sortStrings l1) :=
      (List.mergeSort_perm l1 (fun a b => a ≤ b)).symm
    have p2 : (sortStrings l2).Perm l2 :=
      List.mergeSort_perm l2 (fun a b => a ≤ b)
    rw [h] at p1
    exact p1.trans p2
  · intro h
    exact List.eq_of_perm_of_sorted
      ((List.mergeSort_perm l1 _).trans
        (h.trans (List.mergeSort_perm l2 _).symm))
      (List.sorted_mergeSort' l1) (List.sorted_mergeSort' l2)

/-- C1: the aggregate step succeeds only when the multiset of canonical names
of the non-aggregate projection expressions equals the multiset of canonical
names of the resolved group expressions; when the multisets differ, it fails
with the Plan error "Projection references non-aggregate values". -/
theorem claim_c1_aggregate_projection_coherence :
    ∀ (resolve : SQLExpr → Except DFError Expr) (schema : Schema)
      (proj : List Expr) (groupBy : List SQLExpr) (aggr : List Expr)
      (gexprs : List Expr) (gnames pnames : List String),
      collectGroupExprs resolve proj groupBy = some (.ok gexprs) →
      exprNameList gexprs schema = .ok gnames →
      exprNameList (proj.filter (fun e => !is_aggregate_expr e)) schema =
        .ok pnames →
      ((∃ r, aggregate resolve schema proj groupBy aggr = some (.ok r)) →
        (↑gnames : Multiset String) = ↑pnames) ∧
      ((↑gnames : Multiset String) ≠ ↑pnames →
        aggregate resolve schema proj groupBy aggr =
          some (.error (.plan "Projection references non-aggregate values"))) := by
  intro resolve schema proj groupBy aggr gexprs gnames pnames hc hg hp
  constructor
  · rintro ⟨r, hr⟩
    by_cases hs : sortStrings gnames = sortStrings pnames
    · exact Multiset.coe_eq_coe.mpr ((sortStrings_eq_iff_perm _ _).mp hs)
    · simp [aggregate, hc, hg, hp, hs] at hr
  · intro hne
    have hs : sortStrings gnames ≠ sortStrings pnames := fun hs =>
      hne (Multiset.coe_eq_coe.mpr ((sortStrings_eq_iff_perm _ _).mp hs))
    simp [aggregate, hc, hg, hp, hs]

/-- Witness for C1: a projection of one plain column with an empty GROUP BY
trips the coherence check. -/
theorem claim_c1_witness :
    collectGroupExprs (fun _ => .ok Expr.wildcard) [Expr.column "a" none] [] =
      some (.ok []) ∧
    exprNameList ([] : List Expr) [] = .ok [] ∧
    exprNameList ([Expr.column "a" none].filter
      (fun e => !is_aggregate_expr e)) [] = .ok ["a"] ∧
    aggregate (fun _ => .ok Expr.wildcard) [] [Expr.column "a" none] [] [] =
      some (.error (.plan "Projection references non-aggregate values")) :=
  ⟨rfl, rfl, rfl,
    (claim_c1_aggregate_projection_coherence (fun _ => .ok Expr.wildcard) []
      [Expr.column "a" none] [] [] [] [] ["a"] rfl rfl rfl).2 (by decide)⟩

/-! ## Claim C8 -/

/-- The join fold succeeds exactly when every step, working against the
concatenated schemas of the already-joined prefix, matches at least one key. -/
theorem buildJoins_ok_iff (possible : List (String × String)) :
    ∀ (rest : List Plan) (left : Plan),
      (∃ out, buildJoins possible left rest = .ok out) ↔
        ∀ i (h : i < rest.length),
          stepJoinKeys (planSchema left ++ ((rest.take i).map planSchema).flatten)
            (planSchema rest[i]) possible ≠ [] := by
  intro rest
  induction rest with
  | nil =>
    intro left
    constructor
    · intro _ i h
      exact absurd h (by simp)
    · intro _
      exact ⟨(left, []), rfl⟩
  | cons r rest' ih =>
    intro left
    by_cases hk : stepJoinKeys (planSchema left) (planSchema r) possible = []
    · have hres : buildJoins possible left (r :: rest') =
          .error (.notImplemented "Cartesian joins are not supported") := by
        simp [buildJoins, hk]
      constructor
      · rintro ⟨out, hout⟩
        rw [hres] at hout
        cases hout
      · intro H
        exact absurd (by simpa using hk) (H 0 (by simp))
    · have ih' := ih (Plan.join left r .Inner
        (stepJoinKeys (planSchema left) (planSchema r) possible))
      cases hrec : buildJoins possible (Plan.join left r .Inner
          (stepJoinKeys (planSchema left) (planSchema r) possible)) rest' with
      | error e =>
        have hres : buildJoins possible left (r :: rest') = .error e := by
          simp [buildJoins, hk, hrec]
        constructor
        · rintro ⟨out, hout⟩
          rw [hres] at hout
          cases hout
        · intro H
          have hnone : ¬ ∃ out, buildJoins possible (Plan.join left r .Inner
              (stepJoinKeys (planSchema left) (planSchema r) possible)) rest' =
                .ok out := by
            rw [hrec]
            rintro ⟨out, hout⟩
            cases hout
          have hok : ∃ out, buildJoins possible (Plan.join left r .Inner
              (stepJoinKeys (planSchema left) (planSchema r) possible)) rest' =
                .ok out := by
            apply ih'.mpr
            intro j hj
            have := H (j + 1) (by simpa using hj)
            simpa [planSchema, List.append_assoc] using this
          exact absurd hok hnone
      | ok out' =>
        have hres : buildJoins possible left (r :: rest') =
            .ok (out'.1, stepJoinKeys (planSchema left) (planSchema r) possible
              ++ out'.2) := by
          simp [buildJoins, hk, hrec]
        constructor
        · rintro ⟨out, _⟩
          intro i h
          cases i with
          | zero => simpa using hk
          | succ j =>
            have := (ih'.mp ⟨out', hrec⟩) j (by simpa using h)
            simpa [planSchema, List.append_assoc] using this
        · intro _
          exact ⟨_, hres⟩

/-- The join fold either succeeds or fails with the Cartesian-join error. -/
theorem buildJoins_ok_or_cartesian (possible : List (String × String)) :
    ∀ (rest : List Plan) (left : Plan),
      (∃ out, buildJoins possible left rest = .ok out) ∨
        buildJoins possible left rest =
          .error (.notImplemented "Cartesian joins are not supported") := by
  intro rest
  induction rest with
  | nil =>
    intro left
    exact Or.inl ⟨(left, []), rfl⟩
  | cons r rest' ih =>
    intro left
    by_cases hk : stepJoinKeys (planSchema left) (planSchema r) possible = []
    · right
      simp [buildJoins, hk]
    · rcases ih (Plan.join left r .Inner
          (stepJoinKeys (planSchema left) (planSchema r) possible)) with
        ⟨out', hout'⟩ | herr
      · exact Or.inl ⟨(out'.1, stepJoinKeys (planSchema left) (planSchema r)
          possible ++ out'.2), by simp [buildJoins, hk, hout']⟩
      · right
        simp [buildJoins, hk, herr]

/-- A successful join fold returns the left-deep Inner-join tree whose step
keys are matched against the accumulated left plan. -/
theorem buildJoins_fst (possible : List (String × String)) :
    ∀ (rest : List Plan) (left : Plan) (out : Plan × List (String × String)),
      buildJoins possible left rest = .ok out →
      out.1 = rest.foldl (fun L R => Plan.join L R .Inner
        (stepJoinKeys (planSchema L) (planSchema R) possible)) left := by
  intro rest
  induction rest with
  | nil =>
    intro left out h
    cases h
    rfl
  | cons r rest' ih =>
    intro left out h
    by_cases hk : stepJoinKeys (planSchema left) (planSchema r) possible = []
    · simp [buildJoins, hk] at h
    · simp only [buildJoins, hk, if_neg (by exact hk)] at h
      cases hrec : buildJoins possible (Plan.join left r .Inner
          (stepJoinKeys (planSchema left) (planSchema r) possible)) rest' with
      | error e =>
        rw [hrec] at h
        simp at h
      | ok out' =>
        rw [hrec] at h
        simp only [Option.some.injEq] at h
        cases h
        simpa [List.foldl_cons, planSchema] using ih _ out' hrec

/-- C8: with several FROM relations and a WHERE predicate, the relations are
folded left to right into Inner joins whose keys pair a field of the
accumulated left schema with a field of the current right schema, drawn from
the column-equality pairs of the predicate's conjuncts; a step with no
matching key fails with "Cartesian joins are not supported". -/
theorem claim_c8_where_join_synthesis :
    ∀ (hd : Plan) (tl : List Plan) (filterExpr : Expr)
      (possible : List (String × String)),
      possible = extract_possible_join_keys filterExpr →
      ((∃ out, whereJoinPlan (hd :: tl) filterExpr = some (.ok out)) ↔
        ∀ i (h : i < tl.length),
          stepJoinKeys (planSchema hd ++ ((tl.take i).map planSchema).flatten)
            (planSchema tl[i]) possible ≠ []) ∧
      ((¬ ∀ i (h : i < tl.length),
          stepJoinKeys (planSchema hd ++ ((tl.take i).map planSchema).flatten)
            (planSchema tl[i]) possible ≠ []) →
        whereJoinPlan (hd :: tl) filterExpr =
          some (.error (.notImplemented "Cartesian joins are not supported"))) ∧
      (∀ out, whereJoinPlan (hd :: tl) filterExpr = some (.ok out) →
        out.1 = tl.foldl (fun L R => Plan.join L R .Inner
          (stepJoinKeys (planSchema L) (planSchema R) possible)) hd) := by
  intro hd tl filterExpr possible hp
  subst hp
  refine ⟨?_, ?_, ?_⟩
  · rw [show whereJoinPlan (hd :: tl) filterExpr =
        some (buildJoins (extract_possible_join_keys filterExpr) hd tl) from rfl]
    constructor
    · rintro ⟨out, hout⟩
      exact (buildJoins_ok_iff _ tl hd).mp ⟨out, Option.some.inj hout⟩
    · intro H
      obtain ⟨out, hout⟩ := (buildJoins_ok_iff _ tl hd).mpr H
      exact ⟨out, by rw [hout]⟩
  · intro H
    rcases buildJoins_ok_or_cartesian (extract_possible_join_keys filterExpr)
        tl hd with ⟨out, hout⟩ | herr
    · exact absurd ((buildJoins_ok_iff _ tl hd).mp ⟨out, hout⟩) H
    · rw [show whereJoinPlan (hd :: tl) filterExpr =
        some (buildJoins (extract_possible_join_keys filterExpr) hd tl) from rfl,
        herr]
  · intro out hout
    exact buildJoins_fst _ tl hd out (Option.some.inj hout)

/-- Witness for C8: two scans joined on a column equality succeed; the plan is
the Inner join on the matched key. -/
theorem claim_c8_witness :
    ([(extract_possible_join_keys (Expr.binaryExpr (Expr.column "a" none)
      .Eq (Expr.column "b" none)))] =
      [extract_possible_join_keys (Expr.binaryExpr (Expr.column "a" none)
        .Eq (Expr.column "b" none))]) ∧
    (∃ out, whereJoinPlan
      [Plan.scan [⟨"a", .Int32, true⟩], Plan.scan [⟨"b", .Int32, true⟩]]
      (Expr.binaryExpr (Expr.column "a" none) .Eq (Expr.column "b" none)) =
      some (.ok out)) ∧
    ∀ out, whereJoinPlan
      [Plan.scan [⟨"a", .Int32, true⟩], Plan.scan [⟨"b", .Int32, true⟩]]
      (Expr.binaryExpr (Expr.column "a" none) .Eq (Expr.column "b" none)) =
      some (.ok out) →
      out.1 = Plan.join (Plan.scan [⟨"a", .Int32, true⟩])
        (Plan.scan [⟨"b", .Int32, true⟩]) .Inner [("a", "b")] := by
  refine ⟨rfl, ?_, ?_⟩
  · apply (claim_c8_where_join_synthesis (Plan.scan [⟨"a", .Int32, true⟩])
      [Plan.scan [⟨"b", .Int32, true⟩]]
      (Expr.binaryExpr (Expr.column "a" none) .Eq (Expr.column "b" none))
      _ rfl).1.mpr
    intro i h
    have hi : i = 0 := by simpa using h
    subst hi
    simp [stepJoinKeys, planSchema, extract_possible_join_keys, hasField]
  · intro out hout
    have := (claim_c8_where_join_synthesis (Plan.scan [⟨"a", .Int32, true⟩])
      [Plan.scan [⟨"b", .Int32, true⟩]]
      (Expr.binaryExpr (Expr.column "a" none) .Eq (Expr.column "b" none))
      _ rfl).2.2 out hout
    simpa [stepJoinKeys, planSchema, extract_possible_join_keys,
      hasField] using this
